import Mathlib

/-!
Shallow embedding of the t4 starter repository (Next.js + tRPC + TanStack
Query) for checking its natural-language specification.

Embedded source files:
- `src/features/health/schemas/health.schema.ts` (zod schemas)
- the health router (`healthRouter` with `check`, `ping`, `log`)
- the app router (`appRouter = createTRPCRouter({ health: healthRouter })`)
- the server bridge (`getQueryClient`, `prefetch`, `HydrateClient`)

JavaScript runtime values that flow through zod validation are embedded as
`JsonVal`; machine time (`Date.now()`) is embedded as an integer count of
milliseconds.
-/

/-- A JavaScript value as seen by the zod validation layer: strings, numbers,
booleans, `undefined`, and objects (ordered field lists; first binding of a
field name wins, as in a JS object literal read). -/
inductive JsonVal where
  | str (s : String)
  | num (n : Int)
  | bool (b : Bool)
  | undef
  | obj (fields : List (String × JsonVal))

/-- The name zod reports as the `received` type of a value (the result of its
runtime type inspection). -/
def jsTypeName : JsonVal → String
  | .str _ => "string"
  | .num _ => "number"
  | .bool _ => "boolean"
  | .undef => "undefined"
  | .obj _ => "object"

/-- A single zod validation issue: an issue code, the expected and received
type names, and the path to the offending location (a field path; empty for
the root value). -/
structure ZodIssue where
  code : String
  expected : String
  received : String
  path : List String
deriving DecidableEq, Repr

/-- The parsed form of `pingInputSchema = z.object({ echo: z.string().optional() })`
(src/features/health/schemas/health.schema.ts, lines 15-17). -/
structure PingInput where
  echo : Option String
deriving DecidableEq, Repr

/-- zod parse of `pingInputSchema`: the input must be an object; its `echo`
field, when present and not `undefined`, must be a string. A missing or
`undefined` `echo` parses to `none` (the field is `.optional()`). A non-object
input fails at the root path; a non-string `echo` fails at path `["echo"]`. -/
def pingInputParse : JsonVal → Except (List ZodIssue) PingInput
  | .obj fields =>
    match fields.lookup "echo" with
    | none => .ok ⟨none⟩
    | some .undef => .ok ⟨none⟩
    | some (.str s) => .ok ⟨some s⟩
    | some bad => .error [⟨"invalid_type", "string", jsTypeName bad, ["echo"]⟩]
  | other => .error [⟨"invalid_type", "object", jsTypeName other, []⟩]

/-- The status values permitted by `healthCheckSchema`
(`z.enum(["ok", "degraded", "error"])`,
src/features/health/schemas/health.schema.ts, lines 3-8). -/
def healthCheckStatusEnum : List String := ["ok", "degraded", "error"]

/-- The per-call environment of a procedure invocation: the clock value at
call time (`Date.now()`, in milliseconds), the clock value captured when the
health router module loaded (`const startTime = Date.now()`), and the
`npm_package_version` environment variable when set. -/
structure Env where
  now : Int
  startTime : Int
  npmPackageVersion : Option String

/-- Output of the `health.check` handler. `timestamp` embeds `new Date()` as
the call-time clock value. -/
structure HealthCheckOutput where
  status : String
  timestamp : Int
  version : String
  uptime : Int
deriving DecidableEq, Repr

/-- Output of the `health.ping` handler. -/
structure PingOutput where
  message : String
  echo : Option String
deriving DecidableEq, Repr

/-- Output of the `health.log` handler. -/
structure LogOutput where
  logged : Bool
  timestamp : Int
deriving DecidableEq, Repr

/-- The `health.check` handler body: returns status `"ok"`, the current time,
the npm package version (defaulting to `"0.0.1"`), and
`Math.floor((Date.now() - startTime) / 1000)` as uptime. JavaScript
`Math.floor` of an exact quotient is floor division, `Int.fdiv`. -/
def checkHandler (env : Env) : HealthCheckOutput :=
  { status := "ok"
  , timestamp := env.now
  , version := env.npmPackageVersion.getD "0.0.1"
  , uptime := (env.now - env.startTime).fdiv 1000 }

/-- The `health.ping` handler body: returns `message: "pong"` and echoes the
validated input field back. -/
def pingHandler (input : PingInput) : PingOutput :=
  { message := "pong", echo := input.echo }

/-- The `health.log` handler body: logs to the console (a side effect outside
the embedding) and returns `logged: true` with the current time. -/
def logHandler (_input : PingInput) (env : Env) : LogOutput :=
  { logged := true, timestamp := env.now }

/-- The value produced by a successful procedure call, one constructor per
procedure output shape. -/
inductive ProcValue where
  | health (o : HealthCheckOutput)
  | ping (o : PingOutput)
  | log (o : LogOutput)
deriving DecidableEq, Repr

/-- The result of invoking a procedure through the tRPC layer: success, a
validation failure (tRPC BAD_REQUEST carrying the zod issues), or a
path-not-found failure (tRPC NOT_FOUND for the given path). -/
inductive CallResult where
  | ok (v : ProcValue)
  | badRequest (issues : List ZodIssue)
  | notFound (path : String)
deriving DecidableEq, Repr

/-- Whether a procedure is a tRPC query or mutation. -/
inductive ProcKind where
  | query
  | mutation
deriving DecidableEq, Repr

/-- A registered procedure: its kind and its call function. The call function
threads a handler-invocation counter so that "the handler is never executed"
is expressible: the counter increments exactly when the handler body runs. -/
structure Proc where
  kind : ProcKind
  call : JsonVal → Env → Nat → CallResult × Nat

/-- `health.check`: a `baseProcedure.query` with no input schema; the handler
always runs. -/
def checkProc : Proc :=
  { kind := .query
  , call := fun _ env cnt => (.ok (.health (checkHandler env)), cnt + 1) }

/-- `health.ping`: a `baseProcedure.input(pingInputSchema).query`; input
failing the schema short-circuits with the zod issues before the handler. -/
def pingProc : Proc :=
  { kind := .query
  , call := fun input _env cnt =>
      match pingInputParse input with
      | .error issues => (.badRequest issues, cnt)
      | .ok pi => (.ok (.ping (pingHandler pi)), cnt + 1) }

/-- `health.log`: a `baseProcedure.input(pingInputSchema).mutation`; same
validation gate as `ping`. -/
def logProc : Proc :=
  { kind := .mutation
  , call := fun input env cnt =>
      match pingInputParse input with
      | .error issues => (.badRequest issues, cnt)
      | .ok pi => (.ok (.log (logHandler pi env)), cnt + 1) }

/-- The health router, a named collection of procedures
(`createTRPCRouter({ check, ping, log })`). -/
def healthRouterProcs : List (String × Proc) :=
  [("check", checkProc), ("ping", pingProc), ("log", logProc)]

/-- Router nesting: mounting a child router under a namespace yields the
procedures keyed by their full dotted path, as tRPC flattens nested routers
into a record keyed by dotted procedure paths. -/
def mountRouter (ns : String) (procs : List (String × Proc)) : List (String × Proc) :=
  procs.map (fun p => (ns ++ "." ++ p.1, p.2))

/-- `appRouter = createTRPCRouter({ health: healthRouter })`: the flat map
from dotted procedure paths to procedures. -/
def appRouterProcedures : List (String × Proc) :=
  mountRouter "health" healthRouterProcs

/-- Invoking a dotted procedure path against the assembled app router: look
the path up in the flat procedure map; an unregistered path yields a
NOT_FOUND error result without touching any handler. -/
def invoke (path : String) (input : JsonVal) (env : Env) (cnt : Nat) : CallResult × Nat :=
  match appRouterProcedures.lookup path with
  | some p => p.call input env cnt
  | none => (.notFound path, cnt)

/-- A fixed sample environment used by concrete witnesses. -/
def env0 : Env := { now := 5000, startTime := 1000, npmPackageVersion := some "1.0.0" }

/-! ## The request/hydration bridge (src server bridge file)

`getQueryClient = cache(makeQueryClient)`, `prefetch`, and `HydrateClient`.
The state of one query-cache entry. -/

/-- State of a query-cache entry: pending (fetch in flight), success with a
value, or error with a message. -/
inductive QueryState where
  | pending
  | success (v : JsonVal)
  | error (msg : String)

/-- A query-cache instance. `id` is the instance identity (object identity of
the JavaScript `QueryClient`); `entries` maps serialized query-key hashes to
entry states.

Modelled from the spec: `makeQueryClient` (the query-client module imported
by the server bridge) is not under src/; per the spec each call constructs a
fresh, empty query-cache instance. -/
structure QueryClient where
  id : Nat
  entries : List (String × QueryState)

/-- A fresh, empty query-cache instance with the given identity. -/
def makeQueryClient (fresh : Nat) : QueryClient :=
  { id := fresh, entries := [] }

/-- Process-wide server state backing the per-render memoization: the memo
table of React's `cache`, keyed by render scope (one identifier per
server render), plus a supply of fresh instance identities.

Modelled from the spec: React's `cache` primitive is library code; per the
spec it memoizes per request/render scope, never per process. -/
structure ServerState where
  memo : List (Nat × QueryClient)
  nextId : Nat

/-- `getQueryClient = cache(makeQueryClient)`: within one render scope the
memoized instance is returned; the first call of a render scope constructs a
fresh instance via `makeQueryClient` and records it for that scope only. -/
def getQueryClient (render : Nat) (s : ServerState) : QueryClient × ServerState :=
  match s.memo.lookup render with
  | some qc => (qc, s)
  | none =>
    let qc := makeQueryClient s.nextId
    (qc, { memo := (render, qc) :: s.memo, nextId := s.nextId + 1 })

/-- Writing a cache entry during a render: the entry is added to the
query-cache instance memoized for that render scope, and to no other. -/
def writeEntry (render : Nat) (k : String) (st : QueryState) (s : ServerState) : ServerState :=
  { s with
    memo := s.memo.map (fun p =>
      if p.1 = render then (p.1, ⟨p.2.id, (k, st) :: p.2.entries⟩) else p) }

/-- The cache entries observable from a given render scope: the entries of
the instance memoized for that scope (none when the scope has no instance
yet). -/
def readEntries (render : Nat) (s : ServerState) : List (String × QueryState) :=
  match s.memo.lookup render with
  | some qc => qc.entries
  | none => []

/-- Well-formedness of the server state: every memoized instance identity is
below the fresh-identity supply, and instances memoized for distinct render
scopes have distinct identities. -/
def WFState (s : ServerState) : Prop :=
  (∀ r qc, (r, qc) ∈ s.memo → qc.id < s.nextId) ∧
  (∀ r qc r2 qc2, (r, qc) ∈ s.memo → (r2, qc2) ∈ s.memo → r ≠ r2 → qc.id ≠ qc2.id)

/-- The options value passed to `prefetch`: the query key (a list of
JavaScript values; for tRPC options the second element is a metadata object
that may carry a `type` tag) and the eventual settlement of the fetch the
options describe. -/
structure QueryOptionsModel where
  queryKey : List JsonVal
  outcome : Except String JsonVal

/-- The runtime tag inspection in `prefetch`:
`(queryOptions.queryKey[1] as any)?.type === "infinite"`. Optional chaining
yields `undefined` (hence `false` for the comparison) when the second key
element is absent or has no `type` property; property access on a non-object
primitive also yields no string tag here. -/
def hasInfiniteTag (queryKey : List JsonVal) : Bool :=
  match queryKey.get? 1 with
  | some (.obj fields) =>
    match fields.lookup "type" with
    | some (.str s) => s == "infinite"
    | _ => false
  | _ => false

/-- Which cache-population routine `prefetch` dispatched to. -/
inductive PrefetchDispatch where
  | infiniteQuery
  | plainQuery
deriving DecidableEq, Repr

/-- The dispatch decision of `prefetch`: the infinite-query routine exactly
when the query key carries the `type = "infinite"` tag, else the plain
routine. -/
def prefetchDispatch (qo : QueryOptionsModel) : PrefetchDispatch :=
  if hasInfiniteTag qo.queryKey then .infiniteQuery else .plainQuery

/-- One entry of the render-scoped cache as populated by `prefetch`: the
serialized key, the current entry state, and the eventual settlement of the
in-flight fetch (the promise `prefetch` fires and forgets). -/
structure CachedFetch where
  key : List JsonVal
  state : QueryState
  outcome : Except String JsonVal

/-- `queryClient.prefetchQuery(queryOptions)`: records a pending entry whose
in-flight fetch settles to the given outcome. -/
def prefetchQueryRoutine (qo : QueryOptionsModel) (c : List CachedFetch) : List CachedFetch :=
  ⟨qo.queryKey, .pending, qo.outcome⟩ :: c

/-- `queryClient.prefetchInfiniteQuery(queryOptions)`: records a pending
entry for the infinite-shaped query; the entry likewise settles to the
fetch outcome. -/
def prefetchInfiniteQueryRoutine (qo : QueryOptionsModel) (c : List CachedFetch) :
    List CachedFetch :=
  ⟨qo.queryKey, .pending, qo.outcome⟩ :: c

/-- The `prefetch` helper of the server bridge: inspects the query-key tag
and dispatches to the matching population routine, discarding (`void`) the
returned promise. -/
def prefetch (qo : QueryOptionsModel) (c : List CachedFetch) : List CachedFetch :=
  match prefetchDispatch qo with
  | .infiniteQuery => prefetchInfiniteQueryRoutine qo c
  | .plainQuery => prefetchQueryRoutine qo c

/-- The settled state of an entry once its in-flight fetch has completed:
success with the value, or error with the message. -/
def settleOutcome : Except String JsonVal → QueryState
  | .ok v => .success v
  | .error e => .error e

/-- `dehydrate(queryClient)` as invoked by `HydrateClient` at the
serialization boundary: the snapshot of the render cache.

Modelled from the spec: the query-client configuration (`makeQueryClient`)
and the dehydration step are not under src/; per the spec the final snapshot
step waits for all pending cache population to settle before serializing, so
each prefetched entry is serialized in its settled state. -/
def dehydrateCache (c : List CachedFetch) : List (List JsonVal × QueryState) :=
  c.map (fun f => (f.key, settleOutcome f.outcome))

/-- The spec's antecedent for the prefetch dispatch, stated structurally:
the second element of the query key is an object whose `type` property is
the string `"infinite"`. -/
def carriesInfiniteTag (queryKey : List JsonVal) : Prop :=
  ∃ fields, queryKey.get? 1 = some (.obj fields) ∧
    fields.lookup "type" = some (.str "infinite")

/-- A sample query-options value whose key carries the infinite tag. -/
def qoInf : QueryOptionsModel :=
  { queryKey := [.str "q", .obj [("type", .str "infinite")]]
  , outcome := .ok (.str "page") }

/-- A sample query-options value for a plain single-result query. -/
def qoPlain : QueryOptionsModel :=
  { queryKey := [.str "q"], outcome := .ok (.str "r") }

/-- A sample empty server state. -/
def s0 : ServerState := { memo := [], nextId := 0 }

/-! ## Helper lemmas -/

/-- A key bound in an association-list lookup is a member of the list. -/
theorem mem_of_lookup_eq_some {α β : Type} [BEq α] [LawfulBEq α]
    {l : List (α × β)} {a : α} {b : β} (h : l.lookup a = some b) : (a, b) ∈ l := by
  induction l with
  | nil => cases h
  | cons p t ih =>
    obtain ⟨k, v⟩ := p
    rw [List.lookup_cons] at h
    by_cases hk : (a == k) = true
    · simp only [hk] at h
      have hak : a = k := eq_of_beq hk
      cases h
      subst hak
      exact List.mem_cons_self _ _
    · simp only [eq_false_of_ne_true hk] at h
      exact List.mem_cons_of_mem _ (ih h)

/-- Looking up a key absent from the key column of an association list
yields `none`. -/
theorem lookup_eq_none_of_not_mem_keys {α β : Type} [BEq α] [LawfulBEq α]
    (l : List (α × β)) (a : α) (h : a ∉ l.map Prod.fst) : l.lookup a = none := by
  induction l with
  | nil => rfl
  | cons p t ih =>
    obtain ⟨k, v⟩ := p
    simp only [List.map_cons, List.mem_cons] at h
    push_neg at h
    obtain ⟨h1, h2⟩ := h
    rw [List.lookup_cons]
    simp only [beq_eq_false_iff_ne.mpr h1]
    exact ih h2

/-- A settled entry state is never `pending`. -/
theorem settleOutcome_ne_pending (o : Except String JsonVal) :
    settleOutcome o ≠ .pending := by
  cases o <;> exact fun h => QueryState.noConfusion h

/-- Both dispatch branches of `prefetch` record the same pending entry with
the fetch outcome attached. -/
theorem prefetch_eq_cons (qo : QueryOptionsModel) (c : List CachedFetch) :
    prefetch qo c = ⟨qo.queryKey, QueryState.pending, qo.outcome⟩ :: c := by
  unfold prefetch
  cases prefetchDispatch qo <;> rfl

/-- The runtime tag inspection agrees with the structural statement of the
infinite tag. -/
theorem hasInfiniteTag_iff (qk : List JsonVal) :
    hasInfiniteTag qk = true ↔ carriesInfiniteTag qk := by
  unfold hasInfiniteTag carriesInfiniteTag
  cases hg : qk.get? 1 with
  | none => simp
  | some w =>
    cases w with
    | obj fields =>
      simp only [Option.some.injEq, JsonVal.obj.injEq]
      cases hl : fields.lookup "type" with
      | none => simp [hl]
      | some t => cases t <;> simp [hl, beq_iff_eq]
    | str s => simp
    | num n => simp
    | bool b => simp
    | undef => simp

/-- Writing into the instance of one render scope leaves the association of
every other scope untouched. -/
theorem lookup_map_write_ne {r1 r2 : Nat} (hne : r2 ≠ r1) (k : String) (st : QueryState)
    (memo : List (Nat × QueryClient)) :
    (memo.map (fun p =>
      if p.1 = r1 then (p.1, (⟨p.2.id, (k, st) :: p.2.entries⟩ : QueryClient)) else p)).lookup r2
      = memo.lookup r2 := by
  induction memo with
  | nil => rfl
  | cons p t ih =>
    obtain ⟨a, qc⟩ := p
    by_cases ha : a = r1
    · subst ha
      rw [List.map_cons, if_pos rfl, List.lookup_cons, List.lookup_cons]
      simp only [beq_eq_false_iff_ne.mpr hne]
      exact ih
    · simp only [List.map_cons, if_neg ha, List.lookup_cons]
      cases hr : r2 == a
      · exact ih
      · rfl

/-! ## Claim theorems -/

/-- Claim C8: every call to `health.check` returns an object whose status
field equals `"ok"`, whose version field is the version string, and whose
uptime is at least 0, under the hypothesis that the clock value at call time
is at least the clock value captured at module load. -/
theorem health_check_ok_version_uptime (env : Env) (h : env.startTime ≤ env.now) :
    (checkHandler env).status = "ok" ∧
    (checkHandler env).version = env.npmPackageVersion.getD "0.0.1" ∧
    0 ≤ (checkHandler env).uptime := by
  refine ⟨rfl, rfl, ?_⟩
  show 0 ≤ (env.now - env.startTime).fdiv 1000
  rw [Int.fdiv_eq_ediv _ (by norm_num)]
  exact Int.ediv_nonneg (by omega) (by norm_num)

/-- Witness for C8 at a concrete environment. -/
theorem health_check_ok_version_uptime_witness :
    env0.startTime ≤ env0.now ∧
    ((checkHandler env0).status = "ok" ∧
     (checkHandler env0).version = env0.npmPackageVersion.getD "0.0.1" ∧
     0 ≤ (checkHandler env0).uptime) :=
  ⟨by decide, health_check_ok_version_uptime env0 (by decide)⟩

/-- Claim C9: the declared output contract permits status values `"ok"`,
`"degraded"` and `"error"`, but the `health.check` handler returns `"ok"` on
every call; the other two enum values are unreachable as outputs. -/
theorem health_check_status_always_ok (env : Env) :
    (checkHandler env).status = "ok" ∧
    (checkHandler env).status ≠ "degraded" ∧
    (checkHandler env).status ≠ "error" ∧
    healthCheckStatusEnum = ["ok", "degraded", "error"] :=
  ⟨rfl, by show ("ok" : String) ≠ "degraded"; decide,
    by show ("ok" : String) ≠ "error"; decide, rfl⟩

/-- Claim C10: the uptime reported by `health.check` is monotonically
non-decreasing across calls sharing the module-load time: later clock values
yield an uptime at least as large. -/
theorem health_check_uptime_monotone (e1 e2 : Env)
    (hs : e1.startTime = e2.startTime)
    (_h0 : e1.startTime ≤ e1.now) (h12 : e1.now ≤ e2.now) :
    (checkHandler e1).uptime ≤ (checkHandler e2).uptime := by
  show (e1.now - e1.startTime).fdiv 1000 ≤ (e2.now - e2.startTime).fdiv 1000
  rw [Int.fdiv_eq_ediv _ (by norm_num), Int.fdiv_eq_ediv _ (by norm_num)]
  exact Int.ediv_le_ediv (by norm_num) (by omega)

/-- Witness for C10 at concrete environments. -/
theorem health_check_uptime_monotone_witness :
    env0.startTime = env0.startTime ∧ env0.startTime ≤ env0.now ∧
    env0.now ≤ env0.now ∧
    (checkHandler env0).uptime ≤ (checkHandler env0).uptime :=
  ⟨rfl, by decide, by decide,
    health_check_uptime_monotone env0 env0 rfl (by decide) (by decide)⟩

/-- Counterexample to claim C5 as stated: calling `health.ping` with no
input at all does not succeed; the absent input (`undefined`) fails the
`z.object` validation at the root, so the call returns a validation error
rather than a pong with an undefined echo. -/
theorem health_ping_absent_input_fails :
    (invoke "health.ping" JsonVal.undef env0 0).1 =
      CallResult.badRequest [⟨"invalid_type", "object", "undefined", []⟩] := rfl

/-- Claim C5 as amended: `health.ping` with input echo `"hi"` returns
message `"pong"` with echo `"hi"`; with an empty-object input it returns
message `"pong"` with an undefined echo; a call with absent input fails
validation with a ValidationError instead of succeeding. -/
theorem health_ping_behavior (env : Env) (cnt : Nat) :
    invoke "health.ping" (.obj [("echo", .str "hi")]) env cnt
      = (.ok (.ping ⟨"pong", some "hi"⟩), cnt + 1) ∧
    invoke "health.ping" (.obj []) env cnt
      = (.ok (.ping ⟨"pong", none⟩), cnt + 1) ∧
    invoke "health.ping" .undef env cnt
      = (.badRequest [⟨"invalid_type", "object", "undefined", []⟩], cnt) :=
  ⟨rfl, rfl, rfl⟩

/-- Counterexample to claim C6 as stated: calling `health.log` with absent
input produces an error result (the `z.object` validation rejects
`undefined`), so the call does not succeed for every input. -/
theorem health_log_absent_input_fails :
    (invoke "health.log" JsonVal.undef env0 0).1 =
      CallResult.badRequest [⟨"invalid_type", "object", "undefined", []⟩] := rfl

/-- Claim C6 as amended: `health.log` with input echo `"x"` returns logged
true with the call-time timestamp; every input that passes validation
likewise succeeds (the handler never produces an error result); a call with
absent input fails validation with a ValidationError. -/
theorem health_log_behavior (env : Env) (cnt : Nat) :
    invoke "health.log" (.obj [("echo", .str "x")]) env cnt
      = (.ok (.log ⟨true, env.now⟩), cnt + 1) ∧
    invoke "health.log" .undef env cnt
      = (.badRequest [⟨"invalid_type", "object", "undefined", []⟩], cnt) ∧
    ∀ v pi, pingInputParse v = .ok pi →
      invoke "health.log" v env cnt = (.ok (.log ⟨true, env.now⟩), cnt + 1) := by
  refine ⟨rfl, rfl, ?_⟩
  intro v pi h
  show logProc.call v env cnt = (.ok (.log ⟨true, env.now⟩), cnt + 1)
  simp [logProc, h, logHandler]

/-- Witness for C6 discharging the validated-input hypothesis concretely. -/
theorem health_log_behavior_witness :
    invoke "health.log" (JsonVal.obj []) env0 0
      = (.ok (.log ⟨true, env0.now⟩), 1) :=
  (health_log_behavior env0 0).2.2 (JsonVal.obj []) ⟨none⟩ rfl

/-- Claim C7: invoking any dotted procedure path not present in the
assembled app router yields a NOT_FOUND error result for that path, and in
particular never a successful result. -/
theorem unknown_path_not_found (path : String) (input : JsonVal) (env : Env)
    (cnt : Nat) (h : path ∉ appRouterProcedures.map Prod.fst) :
    invoke path input env cnt = (.notFound path, cnt) ∧
    ∀ v n, invoke path input env cnt ≠ (.ok v, n) := by
  have hl : appRouterProcedures.lookup path = none :=
    lookup_eq_none_of_not_mem_keys _ _ h
  have he : invoke path input env cnt = (.notFound path, cnt) := by
    simp [invoke, hl]
  refine ⟨he, ?_⟩
  intro v n heq
  rw [he] at heq
  simp at heq

/-- Witness for C7 at a concrete unregistered path. -/
theorem unknown_path_not_found_witness :
    "health.missing" ∉ appRouterProcedures.map Prod.fst ∧
    invoke "health.missing" JsonVal.undef env0 0
      = (.notFound "health.missing", 0) :=
  ⟨by decide, (unknown_path_not_found _ _ env0 0 (by decide)).1⟩

/-- Claim C4: for each procedure carrying the input schema (`health.ping`
and `health.log`) and every input failing that schema, the call returns a
ValidationError carrying the zod issues, the handler is never executed (the
invocation counter is unchanged), the issue list is non-empty, and each
issue locates the failure: at the `echo` field whenever the input is an
object, at the root otherwise. -/
theorem input_validation_short_circuits (v : JsonVal) (env : Env) (cnt : Nat)
    (issues : List ZodIssue) (h : pingInputParse v = .error issues) :
    pingProc.call v env cnt = (.badRequest issues, cnt) ∧
    logProc.call v env cnt = (.badRequest issues, cnt) ∧
    issues ≠ [] ∧
    ∀ i ∈ issues, i.code = "invalid_type" ∧
      ((∃ fs, v = .obj fs) → i.path = ["echo"]) := by
  refine ⟨by simp [pingProc, h], by simp [logProc, h], ?_⟩
  cases v with
  | obj fields =>
    rw [pingInputParse] at h
    cases hl : fields.lookup "echo" with
    | none => rw [hl] at h; cases h
    | some w =>
      rw [hl] at h
      cases w with
      | str s => cases h
      | undef => cases h
      | num n =>
        cases h
        refine ⟨by simp, ?_⟩
        intro i hi
        rw [List.mem_singleton] at hi
        subst hi
        exact ⟨rfl, fun _ => rfl⟩
      | bool b =>
        cases h
        refine ⟨by simp, ?_⟩
        intro i hi
        rw [List.mem_singleton] at hi
        subst hi
        exact ⟨rfl, fun _ => rfl⟩
      | obj fs2 =>
        cases h
        refine ⟨by simp, ?_⟩
        intro i hi
        rw [List.mem_singleton] at hi
        subst hi
        exact ⟨rfl, fun _ => rfl⟩
  | str s =>
    have h2 : (Except.error [(⟨"invalid_type", "object", "string", []⟩ : ZodIssue)]
        : Except (List ZodIssue) PingInput) = .error issues := h
    cases h2
    refine ⟨by simp, ?_⟩
    intro i hi
    rw [List.mem_singleton] at hi
    subst hi
    exact ⟨rfl, by rintro ⟨fs, hfs⟩; exact JsonVal.noConfusion hfs⟩
  | num n =>
    have h2 : (Except.error [(⟨"invalid_type", "object", "number", []⟩ : ZodIssue)]
        : Except (List ZodIssue) PingInput) = .error issues := h
    cases h2
    refine ⟨by simp, ?_⟩
    intro i hi
    rw [List.mem_singleton] at hi
    subst hi
    exact ⟨rfl, by rintro ⟨fs, hfs⟩; exact JsonVal.noConfusion hfs⟩
  | bool b =>
    have h2 : (Except.error [(⟨"invalid_type", "object", "boolean", []⟩ : ZodIssue)]
        : Except (List ZodIssue) PingInput) = .error issues := h
    cases h2
    refine ⟨by simp, ?_⟩
    intro i hi
    rw [List.mem_singleton] at hi
    subst hi
    exact ⟨rfl, by rintro ⟨fs, hfs⟩; exact JsonVal.noConfusion hfs⟩
  | undef =>
    have h2 : (Except.error [(⟨"invalid_type", "object", "undefined", []⟩ : ZodIssue)]
        : Except (List ZodIssue) PingInput) = .error issues := h
    cases h2
    refine ⟨by simp, ?_⟩
    intro i hi
    rw [List.mem_singleton] at hi
    subst hi
    exact ⟨rfl, by rintro ⟨fs, hfs⟩; exact JsonVal.noConfusion hfs⟩

/-- Witness for C4: an object input whose `echo` field is a number fails the
schema with an issue at the `echo` field and the ping handler is skipped. -/
theorem input_validation_short_circuits_witness :
    pingInputParse (JsonVal.obj [("echo", JsonVal.num 5)])
      = .error [⟨"invalid_type", "string", "number", ["echo"]⟩] ∧
    pingProc.call (JsonVal.obj [("echo", JsonVal.num 5)]) env0 0
      = (.badRequest [⟨"invalid_type", "string", "number", ["echo"]⟩], 0) :=
  ⟨rfl, (input_validation_short_circuits (JsonVal.obj [("echo", JsonVal.num 5)]) env0 0
    [⟨"invalid_type", "string", "number", ["echo"]⟩] rfl).1⟩

/-- Claim C3: `prefetch` dispatches to the infinite-query population routine
exactly when the second element of the query key carries the tag
`type = "infinite"`, and to the plain single-result routine otherwise; no
other dispatch outcome exists. -/
theorem prefetch_dispatch_by_tag (qo : QueryOptionsModel) (c : List CachedFetch) :
    (carriesInfiniteTag qo.queryKey →
      prefetchDispatch qo = .infiniteQuery ∧
      prefetch qo c = prefetchInfiniteQueryRoutine qo c) ∧
    (¬ carriesInfiniteTag qo.queryKey →
      prefetchDispatch qo = .plainQuery ∧
      prefetch qo c = prefetchQueryRoutine qo c) ∧
    (prefetchDispatch qo = .infiniteQuery ∨ prefetchDispatch qo = .plainQuery) := by
  refine ⟨?_, ?_, ?_⟩
  · intro hc
    have hb : hasInfiniteTag qo.queryKey = true := (hasInfiniteTag_iff _).mpr hc
    have hd : prefetchDispatch qo = .infiniteQuery := by
      simp [prefetchDispatch, hb]
    exact ⟨hd, by simp [prefetch, hd]⟩
  · intro hc
    have hb : hasInfiniteTag qo.queryKey = false := by
      cases hb2 : hasInfiniteTag qo.queryKey
      · rfl
      · exact absurd ((hasInfiniteTag_iff _).mp hb2) hc
    have hd : prefetchDispatch qo = .plainQuery := by
      simp [prefetchDispatch, hb]
    exact ⟨hd, by simp [prefetch, hd]⟩
  · unfold prefetchDispatch
    cases hasInfiniteTag qo.queryKey
    · exact Or.inr rfl
    · exact Or.inl rfl

/-- Witness for C3: a query key tagged infinite dispatches to the
infinite-query routine. -/
theorem prefetch_dispatch_by_tag_witness :
    prefetchDispatch qoInf = .infiniteQuery ∧
    prefetch qoInf [] = prefetchInfiniteQueryRoutine qoInf [] :=
  (prefetch_dispatch_by_tag qoInf []).1 ⟨[("type", .str "infinite")], rfl, rfl⟩

/-- Claim C2: after a `prefetch` call, the hydration snapshot produced by
the serialization step contains the prefetched entry in its settled state,
which is success or error and never pending; indeed no snapshot entry is
pending. -/
theorem prefetch_entry_settled_in_snapshot (c : List CachedFetch)
    (qo : QueryOptionsModel) :
    (qo.queryKey, settleOutcome qo.outcome) ∈ dehydrateCache (prefetch qo c) ∧
    settleOutcome qo.outcome ≠ .pending ∧
    ∀ k st, (k, st) ∈ dehydrateCache (prefetch qo c) → st ≠ .pending := by
  have hc := prefetch_eq_cons qo c
  refine ⟨?_, settleOutcome_ne_pending _, ?_⟩
  · rw [hc]
    exact List.mem_cons_self _ _
  · intro k st hmem
    rw [hc] at hmem
    simp only [dehydrateCache, List.mem_map] at hmem
    obtain ⟨f, _, hpair⟩ := hmem
    have : st = settleOutcome f.outcome := (Prod.mk.injEq _ _ _ _ ▸ hpair).2.symm
    rw [this]
    exact settleOutcome_ne_pending _

/-- Witness for C2: the settled state of a concrete prefetched entry, drawn
from the snapshot, is not pending. -/
theorem prefetch_entry_settled_in_snapshot_witness :
    QueryState.success (JsonVal.str "r") ≠ QueryState.pending :=
  (prefetch_entry_settled_in_snapshot [] qoPlain).2.2 [JsonVal.str "q"]
    (QueryState.success (JsonVal.str "r")) (List.mem_singleton.mpr rfl)

/-- Claim C1: under the per-render memoization of `getQueryClient`, two
distinct render scopes obtain query-cache instances with distinct
identities, and a cache entry written in one render scope is never
observable from another: the entries the other scope reads are unchanged by
the write. -/
theorem query_client_per_render_isolation (r1 r2 : Nat) (s : ServerState)
    (hne : r1 ≠ r2) (hwf : WFState s) :
    (getQueryClient r1 s).1.id ≠ (getQueryClient r2 (getQueryClient r1 s).2).1.id ∧
    ∀ (s2 : ServerState) (k : String) (st : QueryState),
      readEntries r2 (writeEntry r1 k st s2) = readEntries r2 s2 := by
  obtain ⟨hbound, hdistinct⟩ := hwf
  constructor
  · cases h1 : s.memo.lookup r1 with
    | some qc1 =>
      have hm1 : (r1, qc1) ∈ s.memo := mem_of_lookup_eq_some h1
      cases h2 : s.memo.lookup r2 with
      | some qc2 =>
        have hm2 : (r2, qc2) ∈ s.memo := mem_of_lookup_eq_some h2
        have hid : qc1.id ≠ qc2.id := hdistinct _ _ _ _ hm1 hm2 hne
        simp [getQueryClient, h1, h2, hid]
      | none =>
        have hb : qc1.id < s.nextId := hbound _ _ hm1
        simp only [getQueryClient, h1, h2, makeQueryClient]
        omega
    | none =>
      have hlk : ∀ qc : QueryClient, ((r1, qc) :: s.memo).lookup r2
          = s.memo.lookup r2 := by
        intro qc
        rw [List.lookup_cons]
        simp only [beq_eq_false_iff_ne.mpr (Ne.symm hne)]
      cases h2 : s.memo.lookup r2 with
      | some qc2 =>
        have hm2 : (r2, qc2) ∈ s.memo := mem_of_lookup_eq_some h2
        have hb : qc2.id < s.nextId := hbound _ _ hm2
        simp only [getQueryClient, h1, makeQueryClient, hlk, h2]
        omega
      | none =>
        simp only [getQueryClient, h1, makeQueryClient, hlk, h2]
        omega
  · intro s2 k st
    unfold readEntries writeEntry
    rw [lookup_map_write_ne (Ne.symm hne)]

/-- Witness for C1: starting from the empty server state, render scopes 0
and 1 obtain instances with distinct identities. -/
theorem query_client_per_render_isolation_witness :
    (getQueryClient 0 s0).1.id ≠ (getQueryClient 1 (getQueryClient 0 s0).2).1.id :=
  (query_client_per_render_isolation 0 1 s0 (by decide)
    ⟨by simp [s0], by simp [s0]⟩).1
